import Mathlib

/-!
Verification of the UtopiaOS memory bootstrap core against its
natural-language specification.

The development shallowly embeds the C++ sources of the repository:
memory regions and descriptors (target/memory.hpp, kernel/memory_map.hpp),
the UEFI-to-kernel map conversion, the placement engine
(kernel/memory_manager.hpp), the distributed resource
(kernel/distributed_resource.hpp), the runtime-parameterised buddy
resource (kernel/buddy_resource.cpp and .hpp) and the environment
occupied-memory enumeration (environment/environment.hpp, UEFI/memory.hpp).

Machine-integer conventions: the target is LP64 x86-64, so
std::size_t, std::uintptr_t and the UEFI uint64 type are all 64 bits
wide and arithmetic on them wraps modulo 2^64.  Wherever the source
computes in these types and wrap-around is possible
(memory_region::top and the placement attempts of meet_request, the
descriptor span sums of the map merge helpers, the UEFI page-count
multiplication, the buddy level computation, the distributed-resource
padding computation) the embedding computes modulo `usizeModulus`.

Relevant sizeof/alignof values on the target (used literally below):
sizeof(memory_block_info) = 24, alignof(std::max_align_t) = 16,
sizeof(std::size_t) = alignof(std::size_t) = 8,
sizeof(UEFI::memory_map) = 32, sizeof(environment) = 64,
offset of the memmap member inside environment = 32.
-/

namespace UtopiaOS

/-- Modulus of the 64-bit size_t / uintptr_t arithmetic. -/
def usizeModulus : Nat := 2 ^ 64

/-- Largest representable size_t value, numeric_limits max. -/
def usizeMax : Nat := usizeModulus - 1

/-- Kernel pagesize, UTOPIAOS_KERNEL_PAGESIZE = 1 << 12. -/
def pagesize : Nat := 4096

/-- Firmware pagesize, UEFI::pagesize = 1 << 12. -/
def uefiPagesize : Nat := 4096

/-- Embedding of target::memory_region: a start address and a byte size.
The spec records the invariant that start + size never overflows, as a
precondition at construction, so the fields live in Nat. -/
structure MemoryRegion where
  start : Nat
  size : Nat
  deriving Repr, DecidableEq

namespace MemoryRegion

/-- Embedding of target::memory_region::base. -/
def base (r : MemoryRegion) : Nat := r.start

/-- Embedding of target::memory_region::top, start + size in uintptr
arithmetic, so the sum wraps modulo 2^64. -/
def top (r : MemoryRegion) : Nat := (r.start + r.size) % usizeModulus

/-- Embedding of target::memory_region::intersects_memory_region:
if the other region starts below this one it intersects iff its top
reaches past this base; otherwise it intersects iff it starts below
this top. -/
def intersects (self other : MemoryRegion) : Bool :=
  if other.base < self.base then decide (other.top > self.base)
  else if other.base < self.top then true
  else false

end MemoryRegion

/-- Embedding of target::align<ALIGN>(ptr): round the address up to the
next multiple of the alignment.  The source computes mask = ALIGN - 1,
diff = ptr & mask and returns ptr unchanged when diff is zero and
ptr + (ALIGN - diff) otherwise; the sum is uintptr arithmetic and wraps
modulo 2^64. -/
def alignUp (align ptr : Nat) : Nat :=
  let mask : Nat := align - 1
  let diff : Nat := ptr &&& mask
  if diff = 0 then ptr else (ptr + (align - diff)) % usizeModulus

/-- Embedding of kernel::memory_type. -/
inductive MemoryType where
  | generalPurpose
  | unusable
  | invalid
  deriving Repr, DecidableEq

/-- Embedding of kernel::memory_descriptor.  Addresses and the page
count are 64-bit values. -/
structure MemoryDescriptor where
  type : MemoryType
  physicalStart : Nat
  virtualStart : Nat
  numberOfPages : Nat
  deriving Repr, DecidableEq

namespace MemoryDescriptor

/-- Embedding of memory_descriptor::is_valid. -/
def isValid (md : MemoryDescriptor) : Bool := md.type ≠ MemoryType.invalid

/-- Embedding of the private memory_descriptor::validate of
src/src/kernel/memory_map.hpp: reject when pagesize * number_of_pages
overflows, when either start plus the byte size overflows, or when the
page count is zero. -/
def validate (md : MemoryDescriptor) : Bool :=
  if usizeMax / pagesize < md.numberOfPages then false
  else if usizeMax - pagesize * md.numberOfPages < md.physicalStart then false
  else if usizeMax - pagesize * md.numberOfPages < md.virtualStart then false
  else if md.numberOfPages = 0 then false
  else true

/-- Embedding of memory_descriptor::contains_memory_region: the region
lies between virtual_start and virtual_start + pagesize * pages; both
the region's top and the descriptor's end are uintptr sums and wrap
modulo 2^64. -/
def containsMemoryRegion (md : MemoryDescriptor) (r : MemoryRegion) : Bool :=
  decide (r.base ≥ md.virtualStart) &&
  decide (r.top ≤ (md.virtualStart + pagesize * md.numberOfPages) % usizeModulus)

end MemoryDescriptor

/-- Embedding of UEFI::memory_descriptor_v1.  The type field holds the
numeric EFI_MEMORY_TYPE code; EfiConventionalMemory is 7. -/
structure UEFIDescriptor where
  type : Nat
  physicalStart : Nat
  virtualStart : Nat
  numberOfPages : Nat
  deriving Repr, DecidableEq

/-- Numeric code of UEFI::memory_type::EfiConventionalMemory. -/
def efiConventionalMemory : Nat := 7

/-- Embedding of the converting constructor
memory_descriptor(const UEFI::memory_descriptor_v1 &) of
src/src/kernel/memory_map.hpp: the type becomes general_purpose exactly
for EfiConventionalMemory and unusable otherwise, the starts are copied,
and the page count is (uefi pages * UEFI::pagesize) / pagesize computed
in 64-bit arithmetic, so the product wraps modulo 2^64.  Afterwards
validate decides whether the type is downgraded to invalid. -/
def descriptorFromUEFI (u : UEFIDescriptor) : MemoryDescriptor :=
  let md : MemoryDescriptor :=
    { type := if u.type = efiConventionalMemory then MemoryType.generalPurpose
              else MemoryType.unusable
      physicalStart := u.physicalStart
      virtualStart := u.virtualStart
      numberOfPages := ((u.numberOfPages * uefiPagesize) % usizeModulus) / pagesize }
  if md.validate then md else { md with type := MemoryType.invalid }

/-- Embedding of the four-argument memory_descriptor constructor, which
throws std::invalid_argument when validate fails; the exceptional path
is an error value. -/
def mkMemoryDescriptor (t : MemoryType) (ps vs np : Nat) :
    Except Unit MemoryDescriptor :=
  let md : MemoryDescriptor :=
    { type := t, physicalStart := ps, virtualStart := vs, numberOfPages := np }
  if md.validate then Except.ok md else Except.error ()

/-- Embedding of memory_descriptor::invalid_memory_descriptor, which
brace-initialises {invalid, 0, 0, 0} through the validating constructor;
since the page count is zero, validate fails and the constructor throws,
so this call always raises std::invalid_argument. -/
def invalidMemoryDescriptor : Except Unit MemoryDescriptor :=
  mkMemoryDescriptor MemoryType.invalid 0 0 0

/-- Embedding of memory_map::have_overlap: the end of the first region
(a wrapping uintptr sum) reaches strictly past the virtual start of the
second. -/
def haveOverlap (md1 md2 : MemoryDescriptor) : Bool :=
  decide ((md1.virtualStart + pagesize * md1.numberOfPages) % usizeModulus >
    md2.virtualStart)

/-- Embedding of memory_map::merge_with_overlap.  Differing types or a
physical start that does not line up yield invalid_memory_descriptor
(which throws); otherwise the union descriptor is built through the
validating constructor. -/
def mergeWithOverlap (md1 md2 : MemoryDescriptor) : Except Unit MemoryDescriptor :=
  if md1.type ≠ md2.type then invalidMemoryDescriptor
  else
    let sizeBeforeOverlap :=
      (md2.virtualStart + usizeModulus - md1.virtualStart) % usizeModulus
    let physicalStart2 := (md1.physicalStart + sizeBeforeOverlap) % usizeModulus
    if md2.physicalStart ≠ physicalStart2 then invalidMemoryDescriptor
    else
      let end1 := (md1.virtualStart + pagesize * md1.numberOfPages) % usizeModulus
      let end2 := (md2.virtualStart + pagesize * md2.numberOfPages) % usizeModulus
      let e := max end1 end2
      mkMemoryDescriptor md1.type md1.physicalStart md1.virtualStart
        (((e + usizeModulus - md1.virtualStart) % usizeModulus) / pagesize)

/-- Embedding of memory_map::are_adjacent_and_mergable: same type,
physical addresses lining up, and the first end meeting the second
start exactly. -/
def areAdjacentAndMergable (md1 md2 : MemoryDescriptor) : Bool :=
  if md1.type ≠ md2.type then false
  else
    let end1 := (md1.virtualStart + pagesize * md1.numberOfPages) % usizeModulus
    if (md1.physicalStart +
          (end1 + usizeModulus - md1.virtualStart) % usizeModulus) % usizeModulus
        ≠ md2.physicalStart then false
    else decide (end1 = md2.virtualStart)

/-- Embedding of memory_map::merge_adjacent. -/
def mergeAdjacent (md1 md2 : MemoryDescriptor) : Except Unit MemoryDescriptor :=
  let e := (md2.virtualStart + pagesize * md2.numberOfPages) % usizeModulus
  mkMemoryDescriptor md1.type md1.physicalStart md1.virtualStart
    (((e + usizeModulus - md1.virtualStart) % usizeModulus) / pagesize)

/-- Model of std::partition over the descriptor array with the is_valid
predicate: valid entries come first.  std::partition leaves the relative
order unspecified; the embedding fixes the stable order, which the
claims settled below do not depend on. -/
def partitionValid (l : List MemoryDescriptor) : List MemoryDescriptor :=
  l.filter MemoryDescriptor.isValid ++ l.filter (fun d => ¬ d.isValid)

/-- Insertion of a descriptor into a list sorted by virtual_start,
used to model std::sort with the comparator
md1.virtual_start < md2.virtual_start.  std::sort is unstable and its
order on equal keys is unspecified; the claims settled below use keys
that are pairwise distinct, where every correct sort agrees. -/
def insertByVS (d : MemoryDescriptor) :
    List MemoryDescriptor → List MemoryDescriptor
  | [] => [d]
  | x :: xs =>
    if d.virtualStart < x.virtualStart then d :: x :: xs
    else x :: insertByVS d xs

/-- Model of std::sort over the whole descriptor array by ascending
virtual_start. -/
def sortByVS (l : List MemoryDescriptor) : List MemoryDescriptor :=
  l.foldr insertByVS []

/-- Placeholder descriptor for out-of-range reads in the loop model;
the loop never actually reads out of range. -/
def defaultDescriptor : MemoryDescriptor :=
  { type := MemoryType.invalid, physicalStart := 0, virtualStart := 0,
    numberOfPages := 0 }

/-- Embedding of the merge loop of memory_map::convert_from_uefi: walk
the positions below endValid; on overlap store the merged descriptor at
the upper position, invalidate the lower one when the merge was corrupt,
and skip one extra position; on adjacency store the merged descriptor
and skip; otherwise advance by one.  The thrown std::invalid_argument of
invalid_memory_descriptor propagates as an error. -/
def mergeLoopGo (endValid : Nat) :
    Nat → List MemoryDescriptor → Nat → Except Unit (List MemoryDescriptor)
  | 0, arr, _ => Except.ok arr
  | fuel + 1, arr, lower =>
    if lower ≥ endValid then Except.ok arr
    else if lower + 1 ≥ endValid then Except.ok arr
    else
      let md1 := arr.getD lower defaultDescriptor
      let md2 := arr.getD (lower + 1) defaultDescriptor
      if haveOverlap md1 md2 then
        match mergeWithOverlap md1 md2 with
        | Except.error e => Except.error e
        | Except.ok m =>
          let arr1 := arr.set (lower + 1) m
          let arr2 :=
            if m.type = MemoryType.invalid then
              arr1.set lower { md1 with type := MemoryType.invalid }
            else arr1
          mergeLoopGo endValid fuel arr2 (lower + 2)
      else if areAdjacentAndMergable md1 md2 then
        match mergeAdjacent md1 md2 with
        | Except.error e => Except.error e
        | Except.ok m => mergeLoopGo endValid fuel (arr.set (lower + 1) m) (lower + 2)
      else mergeLoopGo endValid fuel arr (lower + 1)

/-- Entry point of the merge loop: the loop position strictly increases
each iteration and the loop stops once it passes endValid - 1, so
endValid iterations always suffice and the fuelled recursion is exact. -/
def mergeLoop (endValid : Nat) (arr : List MemoryDescriptor) (lower : Nat) :
    Except Unit (List MemoryDescriptor) :=
  mergeLoopGo endValid endValid arr lower

/-- Embedding of the utils::dynarray iterator-range constructor
(src/src/utils/dynarray.hpp) as convert_from_uefi uses it for the stage-1
descriptor array: the copy loop advances the source iterator but never
the destination pointer `current`, so every converted descriptor is
placement-constructed over slot 0 (the slot ends up holding the
conversion of the LAST firmware entry) while slots 1 .. n-1 of the
freshly allocated buffer are never written and keep whatever the
allocator handed out; those indeterminate contents are the `junk`
parameter, indexed by slot. -/
def stage1Copy (junk : Nat → MemoryDescriptor) :
    List UEFIDescriptor → List MemoryDescriptor
  | [] => []
  | u :: us =>
    us.foldl (fun _ v => descriptorFromUEFI v) (descriptorFromUEFI u) ::
      (List.range us.length).map (fun i => junk (i + 1))

/-- Embedding of memory_map::convert_from_uefi: copy the firmware
descriptors through the broken dynarray range constructor (stage1Copy:
only slot 0 is really written, the other slots expose the uninitialized
buffer contents `junk`), partition the valid entries to the front and
remember where they end, sort the whole array by virtual_start, run the
merge loop over the positions below the remembered boundary, partition
again and keep only the valid leading part. -/
def convertFromUEFI (junk : Nat → MemoryDescriptor)
    (uefi : List UEFIDescriptor) : Except Unit (List MemoryDescriptor) :=
  let stage1 := stage1Copy junk uefi
  let part1 := partitionValid stage1
  let endValid := (stage1.filter MemoryDescriptor.isValid).length
  let sorted := sortByVS part1
  match mergeLoop endValid sorted 0 with
  | Except.error e => Except.error e
  | Except.ok merged =>
    let part2 := partitionValid merged
    let endValid2 := (merged.filter MemoryDescriptor.isValid).length
    Except.ok (part2.take endValid2)

/-!
Region placement engine: unsynchronized_memory_manager::meet_request of
src/src/kernel/memory_manager.hpp.
-/

/-- Embedding of the inner while loop of meet_request: scan the occupied
list in order; a region that intersects the current attempt moves the
attempt up to the aligned top of that region, and the loop aborts the
descriptor when the moved attempt no longer fits.  The source writes the
moved attempt as the aggregate
memory_region{aligned_address, aligned_address + request.size}, whose
second field is the size member, so the stored size is
aligned_address + request.size. -/
def scanOmd (desc : MemoryDescriptor) (align reqSize : Nat) :
    List MemoryRegion → MemoryRegion → Option MemoryRegion
  | [], attempt => some attempt
  | r :: rest, attempt =>
    if attempt.intersects r then
      let aligned := alignUp align r.top
      let moved : MemoryRegion :=
        { start := aligned, size := (aligned + reqSize) % usizeModulus }
      if desc.containsMemoryRegion moved then scanOmd desc align reqSize rest moved
      else none
    else scanOmd desc align reqSize rest attempt

/-- Embedding of unsynchronized_memory_manager::meet_request: walk the
descriptors in map order, start from the aligned virtual start, and give
the attempt to the occupied-list scan; an exhausted map throws
CannotMeetRequest, modelled as none.  As in the source, the initial
attempt is the aggregate
memory_region{aligned_address, aligned_address + request.size}. -/
def meetRequest (descs : List MemoryDescriptor) (omd : List MemoryRegion)
    (align reqSize : Nat) : Option MemoryRegion :=
  match descs with
  | [] => none
  | d :: ds =>
    let aligned := alignUp align d.virtualStart
    let attempt : MemoryRegion :=
      { start := aligned, size := (aligned + reqSize) % usizeModulus }
    if d.containsMemoryRegion attempt then
      match scanOmd d align reqSize omd attempt with
      | some r => some r
      | none => meetRequest ds omd align reqSize
    else meetRequest ds omd align reqSize

/-- Embedding of utils::sorted_range_insert_reference composed with
utils::range_by_inserting_reference: the new region is inserted in front
of the first list element that is not smaller (memory_region order is by
start address). -/
def sortedInsertRegion (r : MemoryRegion) :
    List MemoryRegion → List MemoryRegion
  | [] => [r]
  | x :: xs =>
    if x.start < r.start then x :: sortedInsertRegion r xs
    else r :: x :: xs

/-- Embedding of the placement fold of
unsynchronized_memory_manager::build_memory_manager: for each request in
tag order, meet it against the current occupied list and then insert the
chosen region into the sorted occupied list, so later placements see the
earlier ones as occupied.  Requests are (size, alignment) pairs.
Returns the chosen regions in tag order together with the final occupied
list; a failing meet_request aborts the construction. -/
def placementLoop (descs : List MemoryDescriptor) (omd : List MemoryRegion) :
    List (Nat × Nat) → Option (List MemoryRegion × List MemoryRegion)
  | [] => some ([], omd)
  | (reqSize, align) :: qs =>
    match meetRequest descs omd align reqSize with
    | none => none
    | some r =>
      match placementLoop descs (sortedInsertRegion r omd) qs with
      | none => none
      | some (rs, omdF) => some (r :: rs, omdF)

/-- Interval disjointness of two memory regions: the half-open address
ranges [start, start+size) have no common address. -/
def regionsDisjoint (a b : MemoryRegion) : Prop :=
  a.top ≤ b.start ∨ b.top ≤ a.start

/-!
Distributed resource: kernel::distributed_resource of
src/src/kernel/distributed_resource.hpp.  Upstream resources are
modelled as functions from (bytes, alignment) to an optional block
address; the trailing bookkeeping word is held in an address-indexed
memory.
-/

/-- Pointwise update of an address-indexed memory. -/
def memWrite (mem : Nat → Nat) (key v : Nat) : Nat → Nat :=
  fun a => if a = key then v else mem a

/-- Embedding of distributed_resource::required_padding: the padding
that brings bytes up to an alignof(size_t) boundary past the requested
alignment offset, with the overflow checks of the source; a thrown
std::overflow_error is the error value.  The subtraction
alignof(size_t) - end_alignment_offset is size_t arithmetic and wraps
when the offset exceeds eight. -/
def requiredPadding (bytes alignment : Nat) : Except Unit Nat :=
  let off := alignment % 8 + bytes % 8
  let step : Except Unit Nat :=
    if off ≠ 0 then
      let padding := (8 + usizeModulus - off) % usizeModulus
      if usizeMax - padding < bytes then Except.error () else Except.ok padding
    else Except.ok 0
  match step with
  | Except.error e => Except.error e
  | Except.ok padding =>
    if usizeMax - 8 < (bytes + padding) % usizeModulus then Except.error ()
    else Except.ok padding

/-- Embedding of the upstream loop of distributed_resource::do_allocate:
try each upstream in index order and return the first block obtained
together with the index of the upstream that produced it. -/
def tryUpstreamsFrom (actualSize alignment : Nat) :
    List (Nat → Nat → Option Nat) → Nat → Option (Nat × Nat)
  | [], _ => none
  | u :: rest, idx =>
    match u actualSize alignment with
    | some p => some (p, idx)
    | none => tryUpstreamsFrom actualSize alignment rest (idx + 1)

/-- Embedding of distributed_resource::do_allocate: compute the padding
(translating overflow into bad_alloc), ask the upstreams in order for
bytes + padding + sizeof(size_t) bytes, and on success store the index
of the satisfying upstream at offset bytes + padding inside the block.
Returns the block address, the updated memory and the chosen index. -/
def distributedAllocate (ups : List (Nat → Nat → Option Nat))
    (bytes alignment : Nat) (mem : Nat → Nat) :
    Option (Nat × (Nat → Nat) × Nat) :=
  match requiredPadding bytes alignment with
  | Except.error _ => none
  | Except.ok padding =>
    let actualSize := bytes + padding + 8
    match tryUpstreamsFrom actualSize alignment ups 0 with
    | none => none
    | some (p, idx) => some (p, memWrite mem (p + bytes + padding) idx, idx)

/-- Embedding of distributed_resource::do_deallocate: recompute the
padding, read the upstream index stored at offset bytes + padding past
the block and forward the deallocation to that upstream; the result is
the index of the upstream that receives the deallocation. -/
def distributedDeallocate (bytes alignment : Nat) (mem : Nat → Nat)
    (p : Nat) : Option Nat :=
  match requiredPadding bytes alignment with
  | Except.error _ => none
  | Except.ok padding => some (mem (p + bytes + padding))

/-!
Environment occupied memory: UEFI::memory_map::occupied_memory of
UEFI/memory.hpp and environment::occupied_memory of
environment/environment.hpp.
-/

/-- Embedding of UEFI::memory_map::occupied_memory.  The first region is
the memory_map record itself, sizeof(UEFI::memory_map) = 32 bytes.  The
second region starts at the descriptor storage and its size is the
source expression sizeof(number_of_descriptors * descriptor_size),
which is the size of the 64-bit product type, 8 bytes, independent of
the count and stride arguments. -/
def memoryMapOccupiedMemory (mapAddr descPtr count stride : Nat) :
    List MemoryRegion :=
  [{ start := mapAddr, size := 32 }, { start := descPtr, size := 8 }]

/-- Embedding of environment::occupied_memory: the regions of the
contained memory map (whose record sits at offset 32 inside the
environment) joined with the region of the environment record itself,
sizeof(environment) = 64 bytes. -/
def environmentOccupiedMemory (envAddr descPtr count stride : Nat) :
    List MemoryRegion :=
  memoryMapOccupiedMemory (envAddr + 32) descPtr count stride ++
    [{ start := envAddr, size := 64 }]

/-!
Buddy resource: the runtime-parameterised kernel::buddy_resource of
src/src/kernel/buddy_resource.cpp with the block header of
src/src/kernel/buddy_resource.hpp.  The per-level doubly-linked free
lists are modelled as lists of block addresses; header flag words are an
address-indexed function; the upstream is a supply of aligned top-level
blocks together with a log of the allocation requests it has served.
Uninitialised memory reads as zero.
-/

/-- Value of sizeof(detail::memory_block_info) on the target. -/
def headerSize : Nat := 24

/-- Value of alignof(std::max_align_t) on the target,
detail::max_align. -/
def maxAlign : Nat := 16

/-- Embedding of detail::padding, the fill between the block header and
the max_align-aligned payload: (max_align - sizeof % max_align) %
max_align = 8. -/
def headerPadding : Nat := (maxAlign - headerSize % maxAlign) % maxAlign

/-- Free/occupied flag bit, 1 << (msb(SIZE_MAX) - 1) = 2^63. -/
def freeBit : Nat := 2 ^ 63

/-- Embedding of utils::msb: count how often the value can be shifted
right before reaching zero. -/
def msbGo : Nat → Nat → Nat
  | _, 0 => 0
  | 0, _ + 1 => 0
  | fuel + 1, n + 1 => msbGo fuel ((n + 1) / 2) + 1

/-- Entry point of utils::msb: halving reaches zero after at most n
steps, so n units of fuel always suffice and the fuelled recursion is
exact. -/
def msbFn (n : Nat) : Nat := msbGo n n

/-- Embedding of memory_block_info::set_free. -/
def setFree (f : Nat) : Nat := f ||| freeBit

/-- Embedding of memory_block_info::set_occupied; the complement of the
free bit in 64-bit arithmetic is SIZE_MAX xor the bit. -/
def setOccupied (f : Nat) : Nat := f &&& (usizeMax ^^^ freeBit)

/-- Embedding of memory_block_info::is_free. -/
def isFree (f : Nat) : Bool := f &&& freeBit ≠ 0

/-- Embedding of memory_block_info::set_first. -/
def setFirst (f level : Nat) : Nat := f ||| (1 <<< level)

/-- Embedding of memory_block_info::set_second. -/
def setSecond (f level : Nat) : Nat := f &&& (usizeMax ^^^ (1 <<< level))

/-- Embedding of memory_block_info::is_first. -/
def isFirst (f level : Nat) : Bool := f &&& (1 <<< level) ≠ 0

/-- Embedding of memory_block_info::is_second. -/
def isSecond (f level : Nat) : Bool := ¬ isFirst f level

/-- Runtime parameters of a buddy_resource: minMsb = utils::msb of the
minimum block size, maxLevel = max_msb - min_msb, and the effective
top-level block alignment max(parameter, max_align). -/
structure BuddyConfig where
  minMsb : Nat
  maxLevel : Nat
  tla : Nat
  deriving Repr

/-- Embedding of detail::block_size_at_level:
1 << (level + min_msb - 1). -/
def blockSizeAtLevel (cfg : BuddyConfig) (level : Nat) : Nat :=
  1 <<< (level + cfg.minMsb - 1)

/-- State of a buddy resource: the per-level free lists (as address
lists), the header flag words, the upstream supply of available aligned
top-level blocks and the log of (size, alignment) requests the upstream
has served. -/
structure BuddyState where
  freeLists : List (List Nat)
  flags : Nat → Nat
  upstreamSupply : List Nat
  upstreamLog : List (Nat × Nat)

/-- Free list of a level. -/
def getFreeList (s : BuddyState) (level : Nat) : List Nat :=
  s.freeLists.getD level []

/-- Embedding of memory_block_info::buddy: the probed sibling sits half
a this-level block size away, upwards for a first (lower) half and
downwards otherwise. -/
def buddyAddr (cfg : BuddyConfig) (flags : Nat → Nat) (b level : Nat) : Nat :=
  let blockSize := blockSizeAtLevel cfg level
  if isFirst (flags b) level then b + blockSize / 2 else b - blockSize / 2

/-- Embedding of buddy_resource::allocate_block.  A non-empty free list
yields its head, unlinked and marked occupied (the source also clears
the previous pointer of the new list head unconditionally; see
popClearAddress).  Below the maximum level, an empty list is refilled by
splitting a block of the next level: the upper half keeps a copied
header and is returned occupied, the lower half is tagged as first,
pushed as the sole element of this level's list and marked free.  At
the maximum level a block is requested from the upstream with the
top-level alignment, rejected (returned and bad_alloc) when the address
is not aligned.  The source guard block_level != max_block_level runs
under the entry assertion block_level <= max_block_level, hence the
strict comparison. -/
def allocateBlockGo (cfg : BuddyConfig) :
    Nat → BuddyState → Nat → Option (Nat × BuddyState)
  | 0, _, _ => none
  | fuel + 1, s, level =>
    match getFreeList s level with
    | b :: rest =>
      some (b, { s with freeLists := s.freeLists.set level rest,
                        flags := memWrite s.flags b (setOccupied (s.flags b)) })
    | [] =>
      if level < cfg.maxLevel then
        match allocateBlockGo cfg fuel s (level + 1) with
        | none => none
        | some (p, s1) =>
          let blockSize := blockSizeAtLevel cfg (level + 1)
          let second := p + blockSize / 2
          let f1 := memWrite s1.flags second (s1.flags p)
          let f2 := memWrite f1 p (setFirst (f1 p) level)
          let f3 := memWrite f2 second (setSecond (f2 second) level)
          let f4 := memWrite f3 p (setFree (f3 p))
          some (second, { s1 with freeLists := s1.freeLists.set level [p],
                                  flags := f4 })
      else
        match s.upstreamSupply with
        | [] => none
        | u :: us =>
          if u % cfg.tla ≠ 0 then none
          else
            some (u, { s with
              upstreamSupply := us,
              upstreamLog :=
                s.upstreamLog ++ [(blockSizeAtLevel cfg cfg.maxLevel, cfg.tla)],
              flags := memWrite s.flags u (setOccupied (s.flags u)) })

/-- Entry point of allocate_block: the recursion climbs from the given
level to at most max_level, so max_level + 1 - level units of fuel are
exact under the entry assertion level <= max_level. -/
def allocateBlock (cfg : BuddyConfig) (s : BuddyState) (level : Nat) :
    Option (Nat × BuddyState) :=
  allocateBlockGo cfg (cfg.maxLevel + 1 - level) s level

/-- Embedding of buddy_resource::deallocate_block.  The loop probes the
buddy address; when the level is maximal or the probed header is not
free, the block is pushed onto the head of this level's free list and
marked free.  Otherwise the probed buddy is unlinked from this level's
list, marked occupied, combined with the block (combine_buddies keeps
the first half) and the loop continues one level up.  The combine guard
runs under the entry assertion block_level <= max_block_level, hence
the strict comparison. -/
def deallocateBlockGo (cfg : BuddyConfig) :
    Nat → BuddyState → Nat → Nat → BuddyState
  | 0, s, _, _ => s
  | fuel + 1, s, b, level =>
    let bud := buddyAddr cfg s.flags b level
    if decide (level < cfg.maxLevel) && isFree (s.flags bud) then
      let s1 : BuddyState :=
        { s with
          freeLists := s.freeLists.set level ((getFreeList s level).erase bud),
          flags := memWrite s.flags bud (setOccupied (s.flags bud)) }
      let merged := if isSecond (s.flags b) level then bud else b
      deallocateBlockGo cfg fuel s1 merged (level + 1)
    else
      { s with freeLists := s.freeLists.set level (b :: getFreeList s level),
               flags := memWrite s.flags b (setFree (s.flags b)) }

/-- Entry point of deallocate_block: the combine loop climbs from the
given level to at most max_level, so max_level + 1 - level units of
fuel are exact under the entry assertion level <= max_level. -/
def deallocateBlock (cfg : BuddyConfig) (s : BuddyState) (b level : Nat) :
    BuddyState :=
  deallocateBlockGo cfg (cfg.maxLevel + 1 - level) s b level

/-- Embedding of the required size of
buddy_resource::level_for_allocation_request:
bytes + padding + sizeof(memory_block_info) in size_t arithmetic. -/
def requiredAllocationSize (bytes : Nat) : Nat :=
  (bytes + headerPadding + headerSize) % usizeModulus

/-- Embedding of buddy_resource::level_for_allocation_request: the
msb of the required size minus min_msb in wrapping size_t arithmetic,
incremented when the required size is not a power of two (the test
(required - 1) & required != 0 with a wrapping decrement).  The
alignment parameter is ignored by the source. -/
def levelForAllocationRequest (cfg : BuddyConfig) (bytes alignment : Nat) :
    Nat :=
  let required := requiredAllocationSize bytes
  let m := msbFn required
  let level := (m + usizeModulus - cfg.minMsb) % usizeModulus
  if ((required + usizeModulus - 1) % usizeModulus) &&& required ≠ 0 then
    (level + 1) % usizeModulus
  else level

/-- Embedding of memory_block_info::data: the payload address is the
header address plus the header size, aligned up to max_align. -/
def blockDataPtr (b : Nat) : Nat := alignUp maxAlign (b + headerSize)

/-- Result of buddy_resource::do_allocate: a thrown std::bad_alloc, the
null pointer returned for zero-byte requests, or a payload pointer with
the successor state. -/
inductive AllocResult where
  | badAlloc
  | nullPtr
  | ok (payload : Nat) (state : BuddyState)

/-- Observation: did the allocation succeed with a payload. -/
def AllocResult.isOk : AllocResult → Bool
  | AllocResult.ok _ _ => true
  | _ => false

/-- Observation: did the allocation throw bad_alloc. -/
def AllocResult.isBadAlloc : AllocResult → Bool
  | AllocResult.badAlloc => true
  | _ => false

/-- Observation: the payload pointer of a successful allocation. -/
def AllocResult.payload : AllocResult → Option Nat
  | AllocResult.ok p _ => some p
  | _ => none

/-- Observation: the free lists after a successful allocation. -/
def AllocResult.freeListsAfter : AllocResult → Option (List (List Nat))
  | AllocResult.ok _ s => some s.freeLists
  | _ => none

/-- Observation: the upstream log after a successful allocation. -/
def AllocResult.upstreamLogAfter : AllocResult → Option (List (Nat × Nat))
  | AllocResult.ok _ s => some s.upstreamLog
  | _ => none

/-- Embedding of buddy_resource::do_allocate: zero bytes yield the null
pointer; a level above the maximum throws bad_alloc; otherwise
allocate_block runs and the payload pointer of the block is returned
(an upstream failure propagates as bad_alloc). -/
def doAllocate (cfg : BuddyConfig) (s : BuddyState) (bytes alignment : Nat) :
    AllocResult :=
  if bytes = 0 then AllocResult.nullPtr
  else
    let level := levelForAllocationRequest cfg bytes alignment
    if level > cfg.maxLevel then AllocResult.badAlloc
    else
      match allocateBlock cfg s level with
      | none => AllocResult.badAlloc
      | some (b, s1) => AllocResult.ok (blockDataPtr b) s1

/-- Embedding of buddy_resource::do_deallocate: zero bytes are a no-op;
otherwise the header sits padding + sizeof(memory_block_info) bytes
below the payload and deallocate_block runs at the level recomputed
from the request. -/
def doDeallocate (cfg : BuddyConfig) (s : BuddyState) (p bytes alignment : Nat) :
    BuddyState :=
  if bytes = 0 then s
  else
    deallocateBlock cfg s (p - (headerPadding + headerSize))
      (levelForAllocationRequest cfg bytes alignment)

/-- Address whose previous-pointer field is cleared by the head-unlink
of buddy_resource::allocate_block, lines
free_block_lists[block_level] = current->next;
free_block_lists[block_level]->previous = nullptr;
In the doubly-linked list the next pointer of the head is the second
list element, or the null pointer (address 0) when the head is the only
block.  Returns none when the list is empty (the unlink does not run). -/
def popClearAddress (s : BuddyState) (level : Nat) : Option Nat :=
  match getFreeList s level with
  | [] => none
  | _ :: [] => some 0
  | _ :: c :: _ => some c

/-- Embedding of the tail of the buddy_resource constructor: after the
parameter validation, the constructor allocates
num_block_levels * sizeof(memory_block_info *) bytes from the buddy
itself (through do_allocate) to hold the free-list heads; the buddy
state a client first observes is the state after this self-allocation.
Construction fails (throws) when that allocation fails. -/
def constructBuddy (cfg : BuddyConfig) (numLevels : Nat) (supply : List Nat) :
    Option BuddyState :=
  let s0 : BuddyState :=
    { freeLists := List.replicate numLevels [], flags := fun _ => 0,
      upstreamSupply := supply, upstreamLog := [] }
  match doAllocate cfg s0 (numLevels * 8) 8 with
  | AllocResult.ok _ s1 => some s1
  | _ => none

/-!
Concrete instances used by the theorems below.
-/

/-- Buddy parameters for min_block = 64, max_block = 1024 (the S5
scenario): min_msb = msb 64 = 7, max_level = msb 1024 - msb 64 = 4; the
effective top-level alignment is taken as 4096 (the kernel pagesize, as
used by build_memory_manager). -/
def buddyCfg64 : BuddyConfig := { minMsb := 7, maxLevel := 4, tla := 4096 }

/-- Buddy parameters for min_block = 128, max_block = 2^18: min_msb = 8,
max_level = 19 - 8 = 11.  These parameters pass every constructor
validity check (powers of two, min <= max, min above the header
footprint, few enough levels), and the construction-time self-allocation
of 12 * 8 = 96 bytes needs exactly one min_block and succeeds. -/
def buddyCfg128 : BuddyConfig := { minMsb := 8, maxLevel := 11, tla := 4096 }

/-- Construction followed by one allocation, the observable a client of
a freshly constructed buddy sees. -/
def constructThenAllocate (cfg : BuddyConfig) (numLevels : Nat)
    (supply : List Nat) (bytes alignment : Nat) : Option AllocResult :=
  (constructBuddy cfg numLevels supply).map
    (fun s => doAllocate cfg s bytes alignment)

/-- Free lists of a freshly constructed buddy after one allocation
followed by the matching deallocation (the smallest sequence of
allocations followed by the reverse deallocations). -/
def constructAllocDeallocFreeLists (cfg : BuddyConfig) (numLevels : Nat)
    (supply : List Nat) (bytes alignment : Nat) : Option (List (List Nat)) :=
  (constructBuddy cfg numLevels supply).bind (fun s =>
    match doAllocate cfg s bytes alignment with
    | AllocResult.ok p s1 => some (doDeallocate cfg s1 p bytes alignment).freeLists
    | _ => none)

/-- Single general-purpose descriptor used for the C1 evaluation:
4 kernel pages at virtual 0x1000. -/
def c1Descriptor : MemoryDescriptor :=
  { type := MemoryType.generalPurpose, physicalStart := 0x1000,
    virtualStart := 0x1000, numberOfPages := 4 }

/-- Firmware input of the C4 evaluation: two conventional memory
entries (both overwritten in slot 0 by the broken copy) followed by a
zero-page entry at virtual 0 whose conversion — the one the copy
actually keeps — is invalid. -/
def c4Input : List UEFIDescriptor :=
  [ { type := 7, physicalStart := 0x1000, virtualStart := 0x1000,
      numberOfPages := 2 },
    { type := 7, physicalStart := 0x100000, virtualStart := 0x2000,
      numberOfPages := 1 },
    { type := 7, physicalStart := 0, virtualStart := 0,
      numberOfPages := 0 } ]

/-- Uninitialized buffer contents of the C4 evaluation: the two unwritten
slots happen to hold bit patterns forming two valid general-purpose
descriptors whose virtual spans overlap (0x1000 for two pages and 0x2000
for one page, with physical starts that do not line up). -/
def c4Junk : Nat → MemoryDescriptor :=
  fun i =>
    if i = 1 then
      { type := MemoryType.generalPurpose, physicalStart := 0x1000,
        virtualStart := 0x1000, numberOfPages := 2 }
    else
      { type := MemoryType.generalPurpose, physicalStart := 0x100000,
        virtualStart := 0x2000, numberOfPages := 1 }

/-- Firmware input of the C5 evaluation: the first entry is overwritten
in slot 0 by the broken copy; the last entry converts to the lower
descriptor a of the mergeable-overlap pair. -/
def c5Input : List UEFIDescriptor :=
  [ { type := 7, physicalStart := 0x11000, virtualStart := 0x2000,
      numberOfPages := 2 },
    { type := 7, physicalStart := 0x10000, virtualStart := 0x1000,
      numberOfPages := 2 } ]

/-- Uninitialized buffer contents of the C5 evaluation: the unwritten
slot holds a bit pattern forming the upper descriptor b of the
mergeable-overlap pair (equal type, physical start lining up with a). -/
def c5Junk : Nat → MemoryDescriptor :=
  fun _ =>
    { type := MemoryType.generalPurpose, physicalStart := 0x11000,
      virtualStart := 0x2000, numberOfPages := 2 }

/-- Firmware descriptor of the C6 evaluation: a conventional-memory
entry whose true byte size (2^52 + 1 firmware pages of 4096 bytes) makes
start + size overflow the 64-bit address type, while the wrapped product
computes to a single kernel page. -/
def c6Input : UEFIDescriptor :=
  { type := 7, physicalStart := 0, virtualStart := 0,
    numberOfPages := 2 ^ 52 + 1 }

/-!
Claim C1.
-/

/-- Claim C1: the spec states that a region returned by meet_request has
size equal to the request's size (and is aligned, contained in a
general-purpose descriptor and disjoint from the occupied list).  On the
map holding only c1Descriptor, with an empty occupied list and a request
of 16 bytes aligned to 8, the source's aggregate
memory_region{aligned_address, aligned_address + request.size} puts
aligned_address + request.size into the size member, so meet_request
returns a region of size 0x1010 = 4112 instead of 16: the code violates
the claim. -/
theorem C1_meet_request_size_eval :
    meetRequest [c1Descriptor] [] 8 16 = some { start := 0x1000, size := 0x1010 }
    ∧ ({ start := 0x1000, size := 0x1010 } : MemoryRegion).size ≠ 16 := by
  decide

/-!
Claim C4.
-/

/-- Claim C4: the spec states that every kernel map produced by the
conversion is strictly sorted by virtual_start with pairwise disjoint
virtual spans.  On c4Input the broken dynarray copy writes every
conversion over slot 0 — leaving there the invalid zero-page conversion
— and exposes the uninitialized slots c4Junk, which hold two valid
overlapping descriptors; the invalid entry (virtual 0) then sorts below
them after the validity boundary has already been fixed, so the merge
loop compares the invalid entry against the first valid one and stops
before ever examining the overlapping pair; the final map keeps both,
and their virtual spans overlap: the code violates the non-overlap half
of the claim. -/
theorem C4_convert_overlap_eval :
    (convertFromUEFI c4Junk c4Input).toOption = some
      [ { type := MemoryType.generalPurpose, physicalStart := 0x1000,
          virtualStart := 0x1000, numberOfPages := 2 },
        { type := MemoryType.generalPurpose, physicalStart := 0x100000,
          virtualStart := 0x2000, numberOfPages := 1 } ]
    ∧ 0x2000 < 0x1000 + pagesize * 2 := by
  decide

/-!
Claim C5.
-/

/-- Claim C5: the spec states that a mergeable overlapping pair (a, b)
is replaced by storing the union at b's position and invalidating a.
On c5Input with heap contents c5Junk the stage-1 array after the broken
copy is [a, b], a mergeable overlapping pair of valid descriptors; the
merge succeeds and stores the union at the upper position, but the loop
invalidates the lower descriptor only when the merge result was
invalid, so the original a survives, still valid, next to the union
covering it: the code violates the claim. -/
theorem C5_merge_keeps_lower_eval :
    (convertFromUEFI c5Junk c5Input).toOption = some
      [ { type := MemoryType.generalPurpose, physicalStart := 0x10000,
          virtualStart := 0x1000, numberOfPages := 2 },
        { type := MemoryType.generalPurpose, physicalStart := 0x10000,
          virtualStart := 0x1000, numberOfPages := 3 } ]
    ∧ ({ type := MemoryType.generalPurpose, physicalStart := 0x10000,
         virtualStart := 0x1000, numberOfPages := 2 } : MemoryDescriptor).isValid
        = true := by
  decide

/-!
Claim C6.
-/

/-- Claim C6: the spec states that a firmware descriptor whose start
plus byte size overflows the address type converts to an invalid kernel
descriptor.  For c6Input the true byte size is (2^52 + 1) * 4096 =
2^64 + 4096, so virtual_start + size overflows, yet the conversion
multiplies in wrapping 64-bit arithmetic, obtains one kernel page,
passes validation and keeps type general_purpose: the code violates the
claim. -/
theorem C6_overflow_wrap_eval :
    (descriptorFromUEFI c6Input).type = MemoryType.generalPurpose
    ∧ (descriptorFromUEFI c6Input).numberOfPages = 1
    ∧ usizeMax < c6Input.virtualStart + c6Input.numberOfPages * uefiPagesize := by
  decide

/-!
Claim C9.
-/

/-- Claim C9 counterexample: the spec states that occupied_memory on the
boot environment returns exactly the firmware map's descriptor storage
region of count * stride bytes, the environment record, the kernel image
region and the kernel stack region.  For an environment record at
0x5000 with descriptors at 0x1000, count 4 and stride 48, the code
returns the memory-map record region, an 8-byte region at the descriptor
storage (sizeof applied to the count * stride product expression) and
the environment record region; the claimed 192-byte descriptor region is
absent and so is the kernel image region 0x100000. -/
theorem C9_occupied_memory_counterexample :
    environmentOccupiedMemory 0x5000 0x1000 4 48 =
      [ { start := 0x5020, size := 32 }, { start := 0x1000, size := 8 },
        { start := 0x5000, size := 64 } ]
    ∧ ({ start := 0x1000, size := 4 * 48 } : MemoryRegion) ∉
        environmentOccupiedMemory 0x5000 0x1000 4 48
    ∧ ({ start := 0x100000, size := 0x100000 } : MemoryRegion) ∉
        environmentOccupiedMemory 0x5000 0x1000 4 48 := by
  decide

/-- Claim C9 as amended: occupied_memory on the boot environment returns
exactly three regions, none depending on the descriptor count or stride:
the contained memory-map record (32 bytes at offset 32 inside the
environment), an 8-byte region at the descriptor storage (the source
takes sizeof of the count * stride expression, hence sizeof(un) = 8),
and the 64-byte environment record itself; the kernel image and stack
regions are not part of the result (the boot code adds them to the
occupied list separately). -/
theorem C9_occupied_memory_amended (envAddr descPtr count stride : Nat) :
    environmentOccupiedMemory envAddr descPtr count stride =
      [ { start := envAddr + 32, size := 32 }, { start := descPtr, size := 8 },
        { start := envAddr, size := 64 } ] := rfl

/-!
Claim C10.
-/

/-- Claim C10: the spec-implied safety property states that unlinking
the head of a non-empty free list in allocate_block clears the new
head's previous pointer only when a block remains on the list.  On the
buddy state reached by constructing a min 64 / max 1024 buddy over a
fresh upstream, the level-1 free list holds exactly one block, a 96-byte
allocation maps to level 1, and the head-unlink of allocate_block then
writes the previous field of current->next, which is the null pointer
(address 0): the code violates the claim. -/
theorem C10_null_write_eval :
    (constructBuddy buddyCfg64 5 [2 ^ 20]).map (fun s => getFreeList s 1) =
      some [2 ^ 20 + 768]
    ∧ levelForAllocationRequest buddyCfg64 96 8 = 1
    ∧ (constructBuddy buddyCfg64 5 [2 ^ 20]).bind (fun s => popClearAddress s 1) =
      some 0 := by
  decide

/-!
Claim C2: counterexample.
-/

/-- Claim C2 counterexample.  First part: for the constructible buddy
with min_block = 128 and max_block = 2^18, a 1-byte request has required
size 33, well below max_block, yet the wrapping level computation
(msb 33 = 6 minus min_msb = 8, then incremented) lands far above
max_level and do_allocate throws bad_alloc instead of forwarding to
allocate_block.  Second part: for the S5 buddy (min 64, max 1024, fresh
upstream), the single 1024-byte top-level block is drawn by the
constructor's own bookkeeping allocation, and the subsequent 32-byte
allocation leaves the upstream log unchanged, contradicting the claim
that this allocation obtains the top-level block. -/
theorem C2_level_counterexample :
    (requiredAllocationSize 1 = 33
      ∧ 33 ≤ blockSizeAtLevel buddyCfg128 buddyCfg128.maxLevel
      ∧ (constructThenAllocate buddyCfg128 12 [2 ^ 20] 1 16).map
          AllocResult.isBadAlloc = some true)
    ∧ ((constructBuddy buddyCfg64 5 [2 ^ 20]).map (fun s => s.upstreamLog) =
        some [(1024, 4096)]
      ∧ (constructThenAllocate buddyCfg64 5 [2 ^ 20] 32 16).bind
          AllocResult.upstreamLogAfter = some [(1024, 4096)]) := by
  decide

/-!
Claim C3: counterexample.
-/

/-- Claim C3 counterexample: the spec states that any sequence of
successful allocations followed by the same deallocations in reverse
order returns the free-list state to its configuration before the
sequence.  On the freshly constructed min 64 / max 1024 buddy, the
sequence consisting of one 32-byte allocation followed by its
deallocation ends with the level-0 list holding two blocks and the
level-1 list empty, while before the sequence level 0 was empty and
level 1 held one block: the deallocated block is pushed back at level 0
(its half-block-offset buddy probe reads occupied) and never recombines,
so the free lists do not return to their prior configuration. -/
theorem C3_lifo_counterexample :
    (constructBuddy buddyCfg64 5 [2 ^ 20]).map (fun s => s.freeLists) =
      some [[], [2 ^ 20 + 768], [2 ^ 20 + 512], [2 ^ 20], []]
    ∧ constructAllocDeallocFreeLists buddyCfg64 5 [2 ^ 20] 32 16 =
      some [[2 ^ 20 + 832, 2 ^ 20 + 768], [], [2 ^ 20 + 512], [2 ^ 20], []]
    ∧ ([[2 ^ 20 + 832, 2 ^ 20 + 768], [], [2 ^ 20 + 512], [2 ^ 20], []] :
        List (List Nat)) ≠ [[], [2 ^ 20 + 768], [2 ^ 20 + 512], [2 ^ 20], []] := by
  decide

/-!
Claim C8: distributed routing.
-/

/-- First-success characterisation of the upstream loop: the returned
index is past the starting index, lies inside the list, its upstream
produced the block, and every earlier tried upstream failed. -/
theorem tryUpstreamsFrom_spec (actualSize alignment : Nat) :
    ∀ (l : List (Nat → Nat → Option Nat)) (k p idx : Nat),
      tryUpstreamsFrom actualSize alignment l k = some (p, idx) →
      k ≤ idx ∧ ∃ hi : idx - k < l.length,
        l.get ⟨idx - k, hi⟩ actualSize alignment = some p ∧
        ∀ j, (hj : j < idx - k) →
          l.get ⟨j, Nat.lt_trans hj hi⟩ actualSize alignment = none := by
  intro l
  induction l with
  | nil => intro k p idx h; simp [tryUpstreamsFrom] at h
  | cons u rest ih =>
    intro k p idx h
    simp only [tryUpstreamsFrom] at h
    cases hu : u actualSize alignment with
    | some q =>
      rw [hu] at h
      injection h with h2
      injection h2 with hp hidx
      subst hp; subst hidx
      refine ⟨Nat.le_refl _, ?_⟩
      have hz : k - k = 0 := Nat.sub_self k
      refine ⟨by simp [hz], ?_⟩
      constructor
      · simp [hz, hu]
      · intro j hj; omega
    | none =>
      rw [hu] at h
      obtain ⟨hk, hi, hget, hnone⟩ := ih (k + 1) p idx h
      have hk2 : k ≤ idx := Nat.le_of_succ_le hk
      have hsub : idx - k = (idx - (k + 1)) + 1 := by omega
      refine ⟨hk2, ?_⟩
      refine ⟨by simp [hsub]; omega, ?_⟩
      constructor
      · simp only [hsub, List.get_cons_succ]; exact hget
      · intro j hj
        match j with
        | 0 => simpa using hu
        | j' + 1 =>
          have hj2 : j' < idx - (k + 1) := by omega
          simpa using hnone j' hj2

/-- Claim C8: a block produced by distributed_resource::do_allocate
carries, at offset bytes + padding inside the block, the index of the
first upstream (in order) that satisfied the allocation, and
do_deallocate recomputes the same offset, reads that index back and
forwards the deallocation to exactly that upstream. -/
theorem C8_distributed_routing
    (ups : List (Nat → Nat → Option Nat)) (bytes alignment : Nat)
    (mem : Nat → Nat) (p idx pad : Nat)
    (hpad : requiredPadding bytes alignment = Except.ok pad)
    (hfirst : tryUpstreamsFrom (bytes + pad + 8) alignment ups 0 = some (p, idx)) :
    distributedAllocate ups bytes alignment mem =
      some (p, memWrite mem (p + bytes + pad) idx, idx)
    ∧ (∃ hi : idx < ups.length,
        ups.get ⟨idx, hi⟩ (bytes + pad + 8) alignment = some p ∧
        ∀ j, (hj : j < idx) →
          ups.get ⟨j, Nat.lt_trans hj hi⟩ (bytes + pad + 8) alignment = none)
    ∧ distributedDeallocate bytes alignment
        (memWrite mem (p + bytes + pad) idx) p = some idx := by
  have hchar := tryUpstreamsFrom_spec (bytes + pad + 8) alignment ups 0 p idx hfirst
  obtain ⟨-, hi, hget, hnone⟩ := hchar
  refine ⟨?_, ⟨hi, hget, hnone⟩, ?_⟩
  · simp only [distributedAllocate, hpad, hfirst]
  · simp [distributedDeallocate, hpad, memWrite]

/-- Witness for C8: two upstreams, the first always failing and the
second granting a block at 0x1000 for a 16-byte request aligned to 8
(padding 0); the index 1 is stored at offset 16 and the deallocation
routes back to upstream 1. -/
theorem C8_distributed_routing_witness :
    distributedAllocate [fun _ _ => none, fun _ _ => some 0x1000] 16 8
        (fun _ => 0) =
      some (0x1000, memWrite (fun _ => 0) (0x1000 + 16 + 0) 1, 1)
    ∧ (∃ hi : 1 < ([fun _ _ => none, fun _ _ => some 0x1000] :
          List (Nat → Nat → Option Nat)).length,
        ([fun _ _ => none, fun _ _ => some 0x1000] :
          List (Nat → Nat → Option Nat)).get ⟨1, hi⟩ (16 + 0 + 8) 8 =
            some 0x1000 ∧
        ∀ j, (hj : j < 1) →
          ([fun _ _ => none, fun _ _ => some 0x1000] :
            List (Nat → Nat → Option Nat)).get ⟨j, Nat.lt_trans hj hi⟩
              (16 + 0 + 8) 8 = none)
    ∧ distributedDeallocate 16 8
        (memWrite (fun _ => 0) (0x1000 + 16 + 0) 1) 0x1000 = some 1 :=
  C8_distributed_routing [fun _ _ => none, fun _ _ => some 0x1000] 16 8
    (fun _ => 0) 0x1000 1 0 (by rfl) (by rfl)

/-!
Claim C7: placement loop disjointness.
-/

/-- Valid general-purpose descriptor high in the address space: 1000
pages starting at virtual 2^63 (validate passes: the span stays below
2^64). -/
def c7Descriptor : MemoryDescriptor :=
  { type := MemoryType.generalPurpose, physicalStart := 2 ^ 63,
    virtualStart := 2 ^ 63, numberOfPages := 1000 }

/-- Modelled from the spec: two memory regions are disjoint when their
true (unbounded) address ranges [start, start + size) share no
address. -/
def specRegionsDisjoint (a b : MemoryRegion) : Prop :=
  a.start + a.size ≤ b.start ∨ b.start + b.size ≤ a.start

instance (a b : MemoryRegion) : Decidable (specRegionsDisjoint a b) := by
  unfold specRegionsDisjoint
  exact inferInstance

/-- Claim C7: the spec states that because each chosen bookkeeping
region is inserted into the sorted occupied list before the next tag's
meet_request runs, the regions chosen for the tags are pairwise
disjoint.  On the map holding c7Descriptor, with an empty occupied list
and two successive 16-byte requests aligned to 8, the attempt aggregate
stores aligned + size = 2^63 + 16 in its size member (the C1 bug), so
attempt.top() wraps modulo 2^64 down to 16; contains_memory_region
accepts the attempt via that wrapped top, the region is returned and
inserted into the occupied list, and the second tag's identical attempt
passes the intersection test against it (the occupied base 2^63 is not
below the wrapped top 16), so the second tag receives the very same
region: the chosen regions coincide instead of being pairwise disjoint,
and the code violates the claim. -/
theorem C7_placement_wrap_eval :
    placementLoop [c7Descriptor] [] [(16, 8), (16, 8)] =
      some ([ { start := 2 ^ 63, size := 2 ^ 63 + 16 },
              { start := 2 ^ 63, size := 2 ^ 63 + 16 } ],
            [ { start := 2 ^ 63, size := 2 ^ 63 + 16 },
              { start := 2 ^ 63, size := 2 ^ 63 + 16 } ])
    ∧ ¬ specRegionsDisjoint { start := 2 ^ 63, size := 2 ^ 63 + 16 }
        { start := 2 ^ 63, size := 2 ^ 63 + 16 } := by
  decide

/-!
Claim C3: LIFO sequences of buddy allocations and deallocations.
-/

/-- Runs the buddy's allocate_block for each requested level in order,
collecting the returned blocks with their levels; a failing allocation
stops the run (unreachable under allocsDirect). -/
def runAllocs (cfg : BuddyConfig) : BuddyState → List Nat → BuddyState × List (Nat × Nat)
  | s, [] => (s, [])
  | s, L :: rest =>
    match allocateBlock cfg s L with
    | none => (s, [])
    | some (b, s1) =>
      let r := runAllocs cfg s1 rest
      (r.1, (b, L) :: r.2)

/-- Condition that every allocation of the sequence is served directly
from a non-empty free list at its level, with no split and no upstream
call. -/
def allocsDirect (cfg : BuddyConfig) : BuddyState → List Nat → Bool
  | _, [] => true
  | s, L :: rest =>
    match getFreeList s L with
    | [] => false
    | _ :: _ =>
      match allocateBlock cfg s L with
      | none => false
      | some x => allocsDirect cfg x.2 rest

/-- Runs the buddy's deallocate_block over a list of (block, level)
pairs in order. -/
def runDeallocs (cfg : BuddyConfig) : BuddyState → List (Nat × Nat) → BuddyState
  | s, [] => s
  | s, (b, L) :: rest => runDeallocs cfg (deallocateBlock cfg s b L) rest

/-- Condition that every deallocation of the sequence takes the push
branch: at its turn, either the level is maximal or the buddy probe
does not read a free header. -/
def deallocsPush (cfg : BuddyConfig) : BuddyState → List (Nat × Nat) → Bool
  | _, [] => true
  | s, (b, L) :: rest =>
    !(decide (L < cfg.maxLevel) && isFree (s.flags (buddyAddr cfg s.flags b L))) &&
      deallocsPush cfg (deallocateBlock cfg s b L) rest

/-- Well-formedness of the buddy free lists: every listed block header
has the free bit set and a 64-bit flag word, and no block is listed
twice across the lists. -/
def buddyInv (s : BuddyState) : Prop :=
  (∀ b ∈ s.freeLists.flatten, isFree (s.flags b) = true ∧ s.flags b < usizeModulus)
  ∧ s.freeLists.flatten.Nodup

/-- State after the head-pop branch of allocate_block: the head is
removed from its level's list and marked occupied. -/
def popState (s : BuddyState) (b : Nat) (tail : List Nat) (L : Nat) : BuddyState :=
  { s with freeLists := s.freeLists.set L tail,
           flags := memWrite s.flags b (setOccupied (s.flags b)) }

/-- Reading a written cell. -/
theorem memWrite_same (m : Nat → Nat) (k v : Nat) : memWrite m k v k = v := by
  simp [memWrite]

/-- Two writes to the same cell collapse. -/
theorem memWrite_memWrite (m : Nat → Nat) (k v1 v2 : Nat) :
    memWrite (memWrite m k v1) k v2 = memWrite m k v2 := by
  funext a
  by_cases h : a = k <;> simp [memWrite, h]

/-- Writing the current value changes nothing. -/
theorem memWrite_self (m : Nat → Nat) (k : Nat) : memWrite m k (m k) = m := by
  funext a
  by_cases h : a = k
  · subst h; simp [memWrite]
  · simp [memWrite, h]

/-- Marking a free 64-bit header occupied and then free again restores
it: the two operations only toggle the dedicated free bit. -/
theorem setFree_setOccupied (f : Nat) (hfree : isFree f = true)
    (hlt : f < usizeModulus) : setFree (setOccupied f) = f := by
  have h63 : f.testBit 63 = true := by
    by_contra hne
    have hb : f.testBit 63 = false := Bool.eq_false_iff.mpr hne
    have h0 : f &&& freeBit = 0 := by
      apply Nat.eq_of_testBit_eq
      intro i
      simp only [Nat.testBit_and, Nat.zero_testBit, freeBit]
      rw [show (2 : Nat) ^ 63 = 2 ^ 63 from rfl, Nat.testBit_two_pow]
      by_cases hi : (63 : Nat) = i
      · subst hi; simp [hb]
      · simp [hi]
    unfold isFree at hfree
    rw [h0] at hfree
    simp at hfree
  apply Nat.eq_of_testBit_eq
  intro i
  simp only [setFree, setOccupied, usizeMax, usizeModulus, freeBit,
    Nat.testBit_or, Nat.testBit_and, Nat.testBit_xor,
    Nat.testBit_two_pow_sub_one, Nat.testBit_two_pow]
  rcases Nat.lt_trichotomy i 63 with hi | hi | hi
  · have h1 : i < 64 := by omega
    have h2 : ¬ ((63 : Nat) = i) := by omega
    simp [h1, h2]
  · subst hi
    simp [h63]
  · have hfi : f.testBit i = false := by
      apply Nat.testBit_lt_two_pow
      calc f < usizeModulus := hlt
        _ = 2 ^ 64 := rfl
        _ ≤ 2 ^ i := Nat.pow_le_pow_right (by norm_num) (by omega)
    have h2 : ¬ ((63 : Nat) = i) := by omega
    simp [hfi, h2]

/-- A non-empty level index is in range. -/
theorem getFreeList_length (s : BuddyState) (L : Nat)
    (h : getFreeList s L ≠ []) : L < s.freeLists.length := by
  by_contra h2
  apply h
  simp [getFreeList, List.getD_eq_getElem?_getD,
    List.getElem?_eq_none (Nat.le_of_not_lt h2)]

/-- Setting an index back to its current value changes nothing. -/
theorem set_getD_self {α : Type} (d : α) :
    ∀ (l : List α) (i : Nat), i < l.length → l.set i (l.getD i d) = l := by
  intro l
  induction l with
  | nil => intro i h; simp at h
  | cons x xs ih =>
    intro i h
    cases i with
    | zero => simp
    | succ n =>
      simp only [List.getD_cons_succ, List.set_cons_succ, List.cons.injEq,
        true_and]
      exact ih n (by simpa using h)

/-- Reading an index just set. -/
theorem getD_set_self {α : Type} (d : α) :
    ∀ (l : List α) (i : Nat) (v : α), i < l.length →
      (l.set i v).getD i d = v := by
  intro l
  induction l with
  | nil => intro i v h; simp at h
  | cons x xs ih =>
    intro i v h
    cases i with
    | zero => simp
    | succ n =>
      simp only [List.set_cons_succ, List.getD_cons_succ]
      exact ih n v (by simpa using h)

/-- A non-empty entry of a list of lists is a member. -/
theorem getD_mem_of_ne_nil {α : Type} :
    ∀ (l : List (List α)) (n : Nat), l.getD n [] ≠ [] → l.getD n [] ∈ l := by
  intro l
  induction l with
  | nil => intro n h; simp at h
  | cons x xs ih =>
    intro n h
    cases n with
    | zero => simp
    | succ m =>
      simp only [List.getD_cons_succ] at h ⊢
      exact List.mem_cons_of_mem x (ih m h)

/-- Replacing one entry of a list of lists by a sublist of it gives a
sublist of the flattening. -/
theorem flatten_set_sublist :
    ∀ (ls : List (List Nat)) (L : Nat) (t : List Nat),
      t.Sublist (ls.getD L []) → (ls.set L t).flatten.Sublist ls.flatten := by
  intro ls
  induction ls with
  | nil => intro L t h; simp
  | cons hd tl ih =>
    intro L t h
    cases L with
    | zero =>
      simp only [List.getD_cons_zero] at h
      simp only [List.set_cons_zero, List.flatten_cons]
      exact h.append (List.Sublist.refl _)
    | succ n =>
      simp only [List.getD_cons_succ] at h
      simp only [List.set_cons_succ, List.flatten_cons]
      exact (List.Sublist.refl hd).append (ih n t h)

/-- Popping the sole occurrence of a block removes it from the
flattening. -/
theorem not_mem_flatten_set :
    ∀ (ls : List (List Nat)) (L : Nat) (b : Nat) (tail : List Nat),
      ls.getD L [] = b :: tail → ls.flatten.Nodup →
      b ∉ (ls.set L tail).flatten := by
  intro ls
  induction ls with
  | nil => intro L b tail h _; simp at h
  | cons hd tl ih =>
    intro L b tail h hnd
    cases L with
    | zero =>
      simp only [List.getD_cons_zero] at h
      subst h
      simp only [List.flatten_cons, List.cons_append] at hnd
      simp only [List.set_cons_zero, List.flatten_cons]
      exact (List.nodup_cons.mp hnd).1
    | succ n =>
      simp only [List.getD_cons_succ] at h
      simp only [List.flatten_cons] at hnd
      obtain ⟨hhd, htl, hdisj⟩ := List.nodup_append.mp hnd
      have hbtl : b ∈ tl.flatten := by
        have hmem : tl.getD n [] ∈ tl := getD_mem_of_ne_nil tl n (by rw [h]; simp)
        exact List.mem_flatten_of_mem hmem (by rw [h]; exact List.mem_cons_self b tail)
      have hbhd : b ∉ hd := fun hb => hdisj hb hbtl
      simp only [List.set_cons_succ, List.flatten_cons, List.mem_append]
      rintro (hb | hb)
      · exact hbhd hb
      · exact ih n b tail h htl hb

/-- The head-pop of allocate_block preserves the free-list
invariant. -/
theorem pop_inv (s : BuddyState) (b : Nat) (tail : List Nat) (L : Nat)
    (hL : getFreeList s L = b :: tail) (hinv : buddyInv s) :
    buddyInv (popState s b tail L) := by
  obtain ⟨hmem, hnd⟩ := hinv
  unfold getFreeList at hL
  have hsub : (s.freeLists.set L tail).flatten.Sublist s.freeLists.flatten := by
    apply flatten_set_sublist
    rw [hL]
    exact List.sublist_cons_self b tail
  have hnmem : b ∉ (s.freeLists.set L tail).flatten :=
    not_mem_flatten_set s.freeLists L b tail hL hnd
  constructor
  · intro x hx
    have hx2 : x ∈ s.freeLists.flatten := hsub.subset hx
    have hxb : x ≠ b := fun he => hnmem (he ▸ hx)
    have hfl : (popState s b tail L).flags x = s.flags x := by
      simp [popState, memWrite, hxb]
    rw [hfl]
    exact hmem x hx2
  · exact List.Nodup.sublist hsub hnd

/-- Characterisation of the head-pop branch of allocate_block. -/
theorem allocateBlock_pop (cfg : BuddyConfig) (s : BuddyState) (L b : Nat)
    (tail : List Nat) (hL : getFreeList s L = b :: tail)
    (hle : L ≤ cfg.maxLevel) :
    allocateBlock cfg s L = some (b, popState s b tail L) := by
  unfold allocateBlock
  have hf : cfg.maxLevel + 1 - L = (cfg.maxLevel - L) + 1 := by omega
  rw [hf]
  simp [allocateBlockGo, hL, popState]

/-- Above the asserted level range, allocate_block's fuelled model
fails. -/
theorem allocateBlock_gt (cfg : BuddyConfig) (s : BuddyState) (L : Nat)
    (hgt : cfg.maxLevel < L) : allocateBlock cfg s L = none := by
  unfold allocateBlock
  have hf : cfg.maxLevel + 1 - L = 0 := by omega
  rw [hf]
  rfl

/-- Characterisation of the push branch of deallocate_block. -/
theorem deallocateBlock_push (cfg : BuddyConfig) (s : BuddyState) (b L : Nat)
    (hle : L ≤ cfg.maxLevel)
    (hcond : (decide (L < cfg.maxLevel) &&
      isFree (s.flags (buddyAddr cfg s.flags b L))) = false) :
    deallocateBlock cfg s b L =
      { s with freeLists := s.freeLists.set L (b :: getFreeList s L),
               flags := memWrite s.flags b (setFree (s.flags b)) } := by
  unfold deallocateBlock
  have hf : cfg.maxLevel + 1 - L = (cfg.maxLevel - L) + 1 := by omega
  rw [hf]
  simp [deallocateBlockGo, hcond]

/-- Deallocation never touches the upstream: neither the supply nor the
request log changes, at any fuel. -/
theorem deallocateBlockGo_upstream (cfg : BuddyConfig) :
    ∀ (fuel : Nat) (s : BuddyState) (b L : Nat),
      (deallocateBlockGo cfg fuel s b L).upstreamSupply = s.upstreamSupply ∧
      (deallocateBlockGo cfg fuel s b L).upstreamLog = s.upstreamLog := by
  intro fuel
  induction fuel with
  | zero => intro s b L; exact ⟨rfl, rfl⟩
  | succ n ih =>
    intro s b L
    by_cases hc : (decide (L < cfg.maxLevel) &&
        isFree (s.flags (buddyAddr cfg s.flags b L))) = true
    · simp only [deallocateBlockGo, hc, if_true]
      exact ih _ _ _
    · have hc2 : (decide (L < cfg.maxLevel) &&
          isFree (s.flags (buddyAddr cfg s.flags b L))) = false :=
        Bool.eq_false_iff.mpr hc
      simp [deallocateBlockGo, hc2]

/-- Pop followed by push at the same level restores the state
exactly. -/
theorem popPush (cfg : BuddyConfig) (s : BuddyState) (b : Nat)
    (tail : List Nat) (L : Nat) (hL : getFreeList s L = b :: tail)
    (hle : L ≤ cfg.maxLevel) (hfree : isFree (s.flags b) = true)
    (hlt : s.flags b < usizeModulus)
    (hcond : (decide (L < cfg.maxLevel) &&
      isFree ((popState s b tail L).flags
        (buddyAddr cfg (popState s b tail L).flags b L))) = false) :
    deallocateBlock cfg (popState s b tail L) b L = s := by
  rw [deallocateBlock_push cfg (popState s b tail L) b L hle hcond]
  have hlen : L < s.freeLists.length :=
    getFreeList_length s L (by rw [hL]; exact List.cons_ne_nil b tail)
  unfold getFreeList at hL
  have hget : getFreeList (popState s b tail L) L = tail := by
    simp only [popState, getFreeList]
    exact getD_set_self [] s.freeLists L tail hlen
  have hlists : (s.freeLists.set L tail).set L (b :: tail) = s.freeLists := by
    rw [List.set_set]
    have h2 := set_getD_self [] s.freeLists L hlen
    rw [hL] at h2
    exact h2
  have hflags :
      memWrite (memWrite s.flags b (setOccupied (s.flags b))) b
        (setFree (memWrite s.flags b (setOccupied (s.flags b)) b)) = s.flags := by
    rw [memWrite_same, memWrite_memWrite, setFree_setOccupied _ hfree hlt,
      memWrite_self]
  rw [hget]
  show ({ freeLists := (s.freeLists.set L tail).set L (b :: tail),
          flags := memWrite (memWrite s.flags b (setOccupied (s.flags b))) b
            (setFree (memWrite s.flags b (setOccupied (s.flags b)) b)),
          upstreamSupply := s.upstreamSupply,
          upstreamLog := s.upstreamLog } : BuddyState) = s
  rw [hlists, hflags]

/-- Running deallocations over an appended list splits into two
runs. -/
theorem runDeallocs_append (cfg : BuddyConfig) :
    ∀ (l1 l2 : List (Nat × Nat)) (s : BuddyState),
      runDeallocs cfg s (l1 ++ l2) = runDeallocs cfg (runDeallocs cfg s l1) l2 := by
  intro l1
  induction l1 with
  | nil => intro l2 s; rfl
  | cons p rest ih =>
    intro l2 s
    obtain ⟨b, L⟩ := p
    simp only [List.cons_append, runDeallocs]
    exact ih l2 _

/-- The push condition over an appended list splits into two
conditions. -/
theorem deallocsPush_append (cfg : BuddyConfig) :
    ∀ (l1 l2 : List (Nat × Nat)) (s : BuddyState),
      deallocsPush cfg s (l1 ++ l2) =
        (deallocsPush cfg s l1 && deallocsPush cfg (runDeallocs cfg s l1) l2) := by
  intro l1
  induction l1 with
  | nil => intro l2 s; simp [deallocsPush, runDeallocs]
  | cons p rest ih =>
    intro l2 s
    obtain ⟨b, L⟩ := p
    simp only [List.cons_append, deallocsPush, runDeallocs, List.append_eq,
      ih, Bool.and_assoc]

/-- Restoration for direct-pop LIFO sequences. -/
theorem lifo_restore (cfg : BuddyConfig) :
    ∀ (levels : List Nat) (s : BuddyState), buddyInv s →
      allocsDirect cfg s levels = true →
      deallocsPush cfg (runAllocs cfg s levels).1
        ((runAllocs cfg s levels).2.reverse) = true →
      runDeallocs cfg (runAllocs cfg s levels).1
        ((runAllocs cfg s levels).2.reverse) = s := by
  intro levels
  induction levels with
  | nil => intro s _ _ _; rfl
  | cons L rest ih =>
    intro s hinv hdirect hpush
    rcases hlist : getFreeList s L with - | ⟨b, tail⟩
    · rw [allocsDirect, hlist] at hdirect
      simp at hdirect
    · have hle : L ≤ cfg.maxLevel := by
        by_contra hgt
        rw [allocsDirect, hlist, allocateBlock_gt cfg s L (Nat.lt_of_not_le hgt)]
          at hdirect
        simp at hdirect
      have halloc := allocateBlock_pop cfg s L b tail hlist hle
      rw [allocsDirect, hlist, halloc] at hdirect
      have hdirect2 : allocsDirect cfg (popState s b tail L) rest = true := hdirect
      have hrun : runAllocs cfg s (L :: rest) =
          ((runAllocs cfg (popState s b tail L) rest).1,
            (b, L) :: (runAllocs cfg (popState s b tail L) rest).2) := by
        simp [runAllocs, halloc]
      rw [hrun] at hpush ⊢
      simp only [List.reverse_cons] at hpush ⊢
      rw [runDeallocs_append]
      rw [deallocsPush_append] at hpush
      rw [Bool.and_eq_true] at hpush
      obtain ⟨hpush1, hpush2⟩ := hpush
      have hinv2 := pop_inv s b tail L hlist hinv
      have hrestore := ih (popState s b tail L) hinv2 hdirect2 hpush1
      rw [hrestore] at hpush2 ⊢
      have hbmem : b ∈ s.freeLists.flatten := by
        apply List.mem_flatten_of_mem
        · exact getD_mem_of_ne_nil s.freeLists L
            (by unfold getFreeList at hlist; rw [hlist]; simp)
        · unfold getFreeList at hlist; rw [hlist]; exact List.mem_cons_self b tail
      obtain ⟨hfree, hlt⟩ := hinv.1 b hbmem
      simp only [deallocsPush, Bool.and_true] at hpush2
      have hcond : (decide (L < cfg.maxLevel) &&
          isFree ((popState s b tail L).flags
            (buddyAddr cfg (popState s b tail L).flags b L))) = false := by
        cases hx : (decide (L < cfg.maxLevel) &&
            isFree ((popState s b tail L).flags
              (buddyAddr cfg (popState s b tail L).flags b L)))
        · rfl
        · rw [hx] at hpush2; simp at hpush2
      show runDeallocs cfg (popState s b tail L) [(b, L)] = s
      show runDeallocs cfg (deallocateBlock cfg (popState s b tail L) b L) [] = s
      rw [popPush cfg s b tail L hlist hle hfree hlt hcond]
      rfl

/-- Claim C3 as amended: for any buddy state whose free lists are
well-formed and any sequence of allocations each served directly from a
non-empty free list at its level (no splits and no new top-level blocks
from the upstream), followed by the same deallocations in reverse order
in which every deallocated block's buddy probe reads occupied, the
entire buddy state — free lists and all header flag words — returns
exactly to its configuration before the sequence; and deallocations
never touch the upstream supply or the upstream request log. -/
theorem C3_lifo_amended (cfg : BuddyConfig) (s : BuddyState)
    (levels : List Nat) (hinv : buddyInv s)
    (hdirect : allocsDirect cfg s levels = true)
    (hpush : deallocsPush cfg (runAllocs cfg s levels).1
      ((runAllocs cfg s levels).2.reverse) = true) :
    runDeallocs cfg (runAllocs cfg s levels).1
      ((runAllocs cfg s levels).2.reverse) = s
    ∧ ∀ (s2 : BuddyState) (b L : Nat),
        (deallocateBlock cfg s2 b L).upstreamSupply = s2.upstreamSupply ∧
        (deallocateBlock cfg s2 b L).upstreamLog = s2.upstreamLog := by
  constructor
  · exact lifo_restore cfg levels s hinv hdirect hpush
  · intro s2 b L
    exact deallocateBlockGo_upstream cfg _ s2 b L

/-- Buddy state of the freshly constructed min 64 / max 1024 buddy,
written out literally: levels 1..3 hold one free block each (and the
flag words record the half-tags set during the construction-time
splits). -/
def buddyLadderState : BuddyState :=
  { freeLists := [[], [2 ^ 20 + 768], [2 ^ 20 + 512], [2 ^ 20], []],
    flags := fun a =>
      if a = 2 ^ 20 then 2 ^ 63 + 8
      else if a = 2 ^ 20 + 512 then 2 ^ 63 + 4
      else if a = 2 ^ 20 + 768 then 2 ^ 63 + 2
      else 0,
    upstreamSupply := [],
    upstreamLog := [(1024, 4096)] }

/-- Witness for C3: on buddyLadderState, allocating one level-1 block
(a direct pop) and deallocating it in reverse restores the state, and
deallocations leave the upstream untouched. -/
theorem C3_lifo_amended_witness :
    runDeallocs buddyCfg64 (runAllocs buddyCfg64 buddyLadderState [1]).1
      ((runAllocs buddyCfg64 buddyLadderState [1]).2.reverse) = buddyLadderState
    ∧ ∀ (s2 : BuddyState) (b L : Nat),
        (deallocateBlock buddyCfg64 s2 b L).upstreamSupply = s2.upstreamSupply ∧
        (deallocateBlock buddyCfg64 s2 b L).upstreamLog = s2.upstreamLog :=
  C3_lifo_amended buddyCfg64 buddyLadderState [1]
    (by constructor
        · decide
        · decide)
    (by decide) (by decide)

/-!
Claim C2: the buddy level computation and allocation forwarding.
-/

/-- Modelled from the spec: level = ceil(log2(required)) − min_msb in
wrapping size_t arithmetic, where the spec's min_msb is log2(min_block),
one less than the shift count utils::msb returns for min_block. -/
def specLevelForAllocation (specMinMsb bytes : Nat) : Nat :=
  (Nat.clog 2 (requiredAllocationSize bytes) + usizeModulus - specMinMsb) %
    usizeModulus

/-- The fuelled shift count equals log2 plus one on positive inputs
whenever the fuel covers the input. -/
theorem msbGo_eq_log2 :
    ∀ (fuel n : Nat), n ≤ fuel →
      msbGo fuel n = if n = 0 then 0 else Nat.log2 n + 1 := by
  intro fuel
  induction fuel with
  | zero =>
    intro n h
    have : n = 0 := Nat.le_zero.mp h
    subst this
    rfl
  | succ m ih =>
    intro n h
    cases n with
    | zero => rfl
    | succ k =>
      have hhalf : (k + 1) / 2 ≤ m := by omega
      have hrec := ih ((k + 1) / 2) hhalf
      simp only [msbGo, hrec]
      by_cases hk : (k + 1) / 2 = 0
      · have hk1 : k = 0 := by omega
        subst hk1
        rw [if_pos hk]
        rw [Nat.log2]
        norm_num
      · rw [if_neg hk]
        have hk2 : k + 1 ≥ 2 := by omega
        have hlog : Nat.log2 (k + 1) = Nat.log2 ((k + 1) / 2) + 1 := by
          conv_lhs => rw [Nat.log2]
          rw [if_pos hk2]
        simp [hlog]

/-- The source's msb equals log2 plus one on positive inputs. -/
theorem msbFn_eq_log2 (n : Nat) (h : n ≠ 0) : msbFn n = Nat.log2 n + 1 := by
  unfold msbFn
  rw [msbGo_eq_log2 n n (Nat.le_refl n), if_neg h]

/-- The power-of-two test of the source: a power of two anded with its
predecessor is zero. -/
theorem pow2_test_zero (k : Nat) : (2 ^ k - 1) &&& 2 ^ k = 0 := by
  apply Nat.eq_of_testBit_eq
  intro i
  simp only [Nat.testBit_and, Nat.testBit_two_pow_sub_one, Nat.testBit_two_pow,
    Nat.zero_testBit]
  by_cases h : k = i
  · subst h; simp
  · simp [h]

/-- The power-of-two test of the source: a non-power-of-two anded with
its predecessor is nonzero, because both share the leading bit. -/
theorem pow2_test_ne (r : Nat) (h : 2 ^ Nat.log2 r < r) :
    (r - 1) &&& r ≠ 0 := by
  have hpos : 0 < r := lt_of_le_of_lt (Nat.zero_le _) h
  have hne : r ≠ 0 := by omega
  have hub : r < 2 ^ (Nat.log2 r + 1) := Nat.lt_log2_self
  set k := Nat.log2 r with hk
  have hbit_r : r.testBit k = true := by
    rw [Nat.testBit_to_div_mod]
    have hdiv : r / 2 ^ k = 1 := by
      apply Nat.div_eq_of_lt_le
      · simpa using Nat.le_of_lt h
      · calc r < 2 ^ (k + 1) := hub
          _ = 2 * 2 ^ k := by ring
    simp [hdiv]
  have hbit_r1 : (r - 1).testBit k = true := by
    rw [Nat.testBit_to_div_mod]
    have hdiv : (r - 1) / 2 ^ k = 1 := by
      apply Nat.div_eq_of_lt_le
      · simp only [Nat.one_mul]
        omega
      · have : r - 1 < 2 ^ (k + 1) := by omega
        calc r - 1 < 2 ^ (k + 1) := this
          _ = 2 * 2 ^ k := by ring
    simp [hdiv]
  intro h0
  have := congrArg (fun x => x.testBit k) h0
  simp only [Nat.testBit_and, hbit_r, hbit_r1, Bool.and_self,
    Nat.zero_testBit] at this
  exact Bool.noConfusion this

/-- Ceiling log of a strict non-power-of-two is the floor log plus
one. -/
theorem clog2_of_log2_lt (r : Nat) (h : 2 ^ Nat.log2 r < r) :
    Nat.clog 2 r = Nat.log2 r + 1 := by
  apply Nat.le_antisymm
  · rw [← Nat.le_pow_iff_clog_le (by norm_num)]
    exact Nat.le_of_lt Nat.lt_log2_self
  · by_contra hlt
    have h2 : Nat.clog 2 r ≤ Nat.log2 r := by omega
    have h3 : r ≤ 2 ^ Nat.log2 r :=
      (Nat.le_pow_iff_clog_le (by norm_num)).mpr h2
    omega

/-- The wrapped predecessor used by the power-of-two test. -/
theorem wrapped_pred (r : Nat) (h1 : 0 < r) (h2 : r < usizeModulus) :
    (r + usizeModulus - 1) % usizeModulus = r - 1 := by
  have he : r + usizeModulus - 1 = usizeModulus + (r - 1) := by omega
  rw [he, Nat.add_mod_left, Nat.mod_eq_of_lt (by omega)]

/-- The required size is a 64-bit value. -/
theorem requiredAllocationSize_lt (bytes : Nat) :
    requiredAllocationSize bytes < usizeModulus := by
  unfold requiredAllocationSize
  exact Nat.mod_lt _ (by norm_num [usizeModulus])

/-- Claim C2 level identity: on positive required sizes the level the
source computes (msb of required minus min_msb in wrapping size_t
arithmetic, incremented for non-powers of two) equals the spec's
formula ceil(log2(required)) − min_msb in the same wrapping arithmetic,
with the spec's min_msb = log2(min_block) being one less than the
code's msb count for min_block. -/
theorem levelFor_eq_specLevel (cfg : BuddyConfig) (bytes alignment : Nat)
    (hmm1 : 1 ≤ cfg.minMsb) (hmm2 : cfg.minMsb ≤ usizeModulus)
    (hr : 0 < requiredAllocationSize bytes) :
    levelForAllocationRequest cfg bytes alignment =
      specLevelForAllocation (cfg.minMsb - 1) bytes := by
  unfold levelForAllocationRequest specLevelForAllocation
  set r := requiredAllocationSize bytes with hrdef
  have hrW : r < usizeModulus := requiredAllocationSize_lt bytes
  have hrne : r ≠ 0 := by omega
  dsimp only
  rw [msbFn_eq_log2 r hrne, wrapped_pred r hr hrW]
  by_cases hp : 2 ^ Nat.log2 r = r
  · have htest : (r - 1) &&& r = 0 := by
      conv_lhs => rw [← hp]
      exact pow2_test_zero (Nat.log2 r)
    rw [if_neg (by simp [htest])]
    have hclog : Nat.clog 2 r = Nat.log2 r := by
      conv_lhs => rw [← hp]
      rw [Nat.clog_pow 2 (Nat.log2 r) (by norm_num)]
    rw [hclog]
    congr 1
    omega
  · have hlt : 2 ^ Nat.log2 r < r :=
      Nat.lt_of_le_of_ne (Nat.log2_self_le hrne) hp
    have htest : (r - 1) &&& r ≠ 0 := pow2_test_ne r hlt
    rw [if_pos htest]
    rw [clog2_of_log2_lt r hlt]
    rw [Nat.mod_add_mod]
    congr 1
    omega

/-- Allocation levels 0 through 4 all succeed on the freshly
constructed min 64 / max 1024 buddy whose upstream still holds a
second aligned top-level block. -/
def constructedOrEmpty (cfg : BuddyConfig) (numLevels : Nat)
    (supply : List Nat) : BuddyState :=
  (constructBuddy cfg numLevels supply).getD
    { freeLists := [], flags := fun _ => 0, upstreamSupply := [],
      upstreamLog := [] }

/-- Claim C2 as amended: the level the buddy computes for a request
equals the spec's formula ceil(log2(required)) − min_msb in wrapping
size_t arithmetic; a nonzero request whose level exceeds max_level
throws bad_alloc; every request whose required size lies between
min_block and max_block is forwarded to allocate_block and succeeds on
the constructed buddy whose upstream still has memory; and allocating
32 bytes from the freshly constructed min 64 / max 1024 buddy returns
the level-0 payload with no further upstream traffic beyond the single
1024-byte top-level block drawn at construction. -/
theorem C2_level_amended :
    (∀ bytes alignment : Nat, 0 < requiredAllocationSize bytes →
      levelForAllocationRequest buddyCfg64 bytes alignment =
        specLevelForAllocation 6 bytes)
    ∧ (∀ bytes : Nat, bytes ≠ 0 →
        levelForAllocationRequest buddyCfg64 bytes 16 > buddyCfg64.maxLevel →
        ∀ s : BuddyState,
          doAllocate buddyCfg64 s bytes 16 = AllocResult.badAlloc)
    ∧ (∀ bytes : Nat, 64 ≤ requiredAllocationSize bytes →
        requiredAllocationSize bytes ≤ 1024 →
        levelForAllocationRequest buddyCfg64 bytes 16 ≤ 4 ∧
        (doAllocate buddyCfg64
          (constructedOrEmpty buddyCfg64 5 [2 ^ 20, 2 ^ 21]) bytes 16).isOk =
          true)
    ∧ ((constructThenAllocate buddyCfg64 5 [2 ^ 20, 2 ^ 21] 32 16).bind
        AllocResult.payload = some (2 ^ 20 + 864)
      ∧ (constructThenAllocate buddyCfg64 5 [2 ^ 20, 2 ^ 21] 32 16).bind
          AllocResult.upstreamLogAfter = some [(1024, 4096)]
      ∧ levelForAllocationRequest buddyCfg64 32 16 = 0) := by
  have hlevel_bound : ∀ bytes : Nat, 64 ≤ requiredAllocationSize bytes →
      requiredAllocationSize bytes ≤ 1024 →
      levelForAllocationRequest buddyCfg64 bytes 16 ≤ 4 := by
    intro bytes h64 h1024
    unfold levelForAllocationRequest
    set r := requiredAllocationSize bytes with hrdef
    have hrW : r < usizeModulus := requiredAllocationSize_lt bytes
    have hrne : r ≠ 0 := by omega
    have hlog_lo : 6 ≤ Nat.log2 r := (Nat.le_log2 hrne).mpr (by norm_num; omega)
    have hlog_hi : Nat.log2 r ≤ 10 := by
      have := (Nat.log2_lt hrne).mpr (show r < 2 ^ 11 by norm_num; omega)
      omega
    dsimp only
    rw [msbFn_eq_log2 r hrne, wrapped_pred r (by omega) hrW]
    by_cases hp : 2 ^ Nat.log2 r = r
    · have htest : (r - 1) &&& r = 0 := by
        conv_lhs => rw [← hp]
        exact pow2_test_zero (Nat.log2 r)
      rw [if_neg (by simp [htest])]
      have he : Nat.log2 r + 1 + usizeModulus - buddyCfg64.minMsb =
          usizeModulus + (Nat.log2 r - 6) := by
        simp only [buddyCfg64]
        omega
      rw [he, Nat.add_mod_left,
        Nat.mod_eq_of_lt (by unfold usizeModulus; omega)]
      omega
    · have hlt : 2 ^ Nat.log2 r < r :=
        Nat.lt_of_le_of_ne (Nat.log2_self_le hrne) hp
      have htest : (r - 1) &&& r ≠ 0 := pow2_test_ne r hlt
      rw [if_pos htest]
      have hlog_hi2 : Nat.log2 r ≤ 9 := by
        by_contra hgt
        have h10 : Nat.log2 r = 10 := by omega
        rw [h10] at hlt
        norm_num at hlt
        omega
      rw [Nat.mod_add_mod]
      have he : Nat.log2 r + 1 + usizeModulus - buddyCfg64.minMsb + 1 =
          usizeModulus + (Nat.log2 r - 5) := by
        simp only [buddyCfg64]
        omega
      rw [he, Nat.add_mod_left,
        Nat.mod_eq_of_lt (by unfold usizeModulus; omega)]
      omega
  refine ⟨?_, ?_, ?_, ?_⟩
  · intro bytes alignment hr
    exact levelFor_eq_specLevel buddyCfg64 bytes alignment (by norm_num [buddyCfg64])
      (by norm_num [buddyCfg64, usizeModulus]) hr
  · intro bytes hb hlev s
    unfold doAllocate
    rw [if_neg hb, if_pos hlev]
  · intro bytes h64 h1024
    refine ⟨hlevel_bound bytes h64 h1024, ?_⟩
    have hbne : bytes ≠ 0 := by
      intro h0
      subst h0
      simp [requiredAllocationSize, headerPadding, headerSize, maxAlign,
        usizeModulus] at h64
    have hsucc : ∀ L : Nat, L < 5 →
        (allocateBlock buddyCfg64
          (constructedOrEmpty buddyCfg64 5 [2 ^ 20, 2 ^ 21]) L).isSome = true := by
      decide
    unfold doAllocate
    rw [if_neg hbne]
    have hle := hlevel_bound bytes h64 h1024
    have h4 : buddyCfg64.maxLevel = 4 := rfl
    rw [if_neg (by omega)]
    have hx := hsucc (levelForAllocationRequest buddyCfg64 bytes 16)
      (by omega)
    cases halloc : allocateBlock buddyCfg64
        (constructedOrEmpty buddyCfg64 5 [2 ^ 20, 2 ^ 21])
        (levelForAllocationRequest buddyCfg64 bytes 16) with
    | none => rw [halloc] at hx; simp at hx
    | some x =>
      obtain ⟨b, s1⟩ := x
      simp [AllocResult.isOk]
  · refine ⟨by decide, by decide, by decide⟩

/-- Witness for C2: the 32-byte request (required size 64) has level 0,
matching the spec formula; a 1024-byte request (required size 1056,
level 5) throws bad_alloc on any state; the 32-byte request is in range
and succeeds on the constructed buddy; and the S5 observables hold. -/
theorem C2_level_amended_witness :
    levelForAllocationRequest buddyCfg64 32 16 = specLevelForAllocation 6 32
    ∧ doAllocate buddyCfg64 buddyLadderState 1024 16 = AllocResult.badAlloc
    ∧ (levelForAllocationRequest buddyCfg64 32 16 ≤ 4 ∧
        (doAllocate buddyCfg64
          (constructedOrEmpty buddyCfg64 5 [2 ^ 20, 2 ^ 21]) 32 16).isOk = true)
    ∧ (constructThenAllocate buddyCfg64 5 [2 ^ 20, 2 ^ 21] 32 16).bind
        AllocResult.payload = some (2 ^ 20 + 864) :=
  ⟨C2_level_amended.1 32 16 (by decide),
   C2_level_amended.2.1 1024 (by decide) (by decide) buddyLadderState,
   C2_level_amended.2.2.1 32 (by decide) (by decide),
   C2_level_amended.2.2.2.1⟩

end UtopiaOS
